import Mathlib

/-!
Verification of the secure-document-transfer repository.

The Go backend (crypto key wrapping, ingestion pipeline handler, database
helpers) and the TypeScript frontend chunker are shallowly embedded as
executable Lean definitions.  External library primitives that the code
calls (Go crypto/cipher AES-GCM, pbkdf2, base64, Supabase auth and storage)
are modelled by small concrete Lean functions that realise the contract the
library documents; randomness (key generation, salts, nonces, fresh ids) is
made explicit as function arguments.
-/

namespace SDT

/-- Byte strings are modelled as lists of naturals. -/
abbrev Bytes := List Nat

/-! ## Crypto section: model of src internal/crypto (part_005)

The Go code derives an AES key from a password with
pbkdf2.Key(password, salt, 100000, 32, sha256.New) and encrypts with
AES-256-GCM.  The key-derivation function is modelled as a deterministic
injective function of the password and the salt (an idealisation of
collision-freeness); the GCM cipher is modelled as ideal authenticated
encryption: opening succeeds exactly when key and nonce match the ones used
to seal, as documented for cipher.AEAD Seal and Open. -/

/-- RSA key size constant from the Go source. -/
def RSAKeySize : Nat := 2048

/-- PBKDF2 iteration count constant from the Go source. -/
def PBKDF2Iterations : Nat := 100000

/-- Salt size in bytes, from the Go source. -/
def SaltSize : Nat := 32

/-- AES key size in bytes, from the Go source. -/
def AESKeySize : Nat := 32

/-- Model of the symmetric key produced by pbkdf2.Key: determined by the
password and the salt.  The iteration count and key length are fixed
constants at every call site and carry no information. -/
structure DerivedKey where
  password : String
  salt : Bytes
deriving DecidableEq, Repr

/-- Model of pbkdf2.Key(password, salt, iterations, keyLen, sha256.New). -/
def pbkdf2Key (password : String) (salt : Bytes) (_iterations _keyLen : Nat) : DerivedKey :=
  { password := password, salt := salt }

/-- Model of an AES-256-GCM ciphertext: the sealed body together with the
authentication context (key and nonce) the tag binds it to. -/
structure GCMCiphertext where
  body : Bytes
  sealKey : DerivedKey
  sealNonce : Bytes
deriving DecidableEq, Repr

/-- Model of gcm.Seal(nil, nonce, plaintext, nil). -/
def gcmSeal (key : DerivedKey) (nonce : Bytes) (plaintext : Bytes) : GCMCiphertext :=
  { body := plaintext, sealKey := key, sealNonce := nonce }

/-- Model of gcm.Open(nil, nonce, ciphertext, nil): returns the plaintext
exactly when the key and nonce match the sealing ones, otherwise fails
with the authentication error and returns no data. -/
def gcmOpen (key : DerivedKey) (nonce : Bytes) (ct : GCMCiphertext) : Except String Bytes :=
  if ct.sealKey = key ∧ ct.sealNonce = nonce then Except.ok ct.body
  else Except.error "cipher: message authentication failed"

/-- Model of a base64.StdEncoding string holding a value of type α:
EncodeToString is injective and DecodeString inverts it on its image, so a
well-formed base64 string is represented by its decoded payload. -/
structure Base64 (α : Type) where
  payload : α
deriving DecidableEq, Repr

/-- Model of base64.StdEncoding.EncodeToString. -/
def base64Encode {α : Type} (x : α) : Base64 α := { payload := x }

/-- Model of base64.StdEncoding.DecodeString applied to a well-formed
encoded value. -/
def base64Decode {α : Type} (s : Base64 α) : Except String α := Except.ok s.payload

/-- Translation of encryptAES from the Go source: AES-256-GCM with a nonce
that rand.Read produced; the nonce is passed explicitly to make the
randomness a parameter.  Returns the ciphertext and the nonce. -/
def encryptAES (plaintext : Bytes) (key : DerivedKey) (nonce : Bytes) : GCMCiphertext × Bytes :=
  (gcmSeal key nonce plaintext, nonce)

/-- Translation of decryptAES from the Go source. -/
def decryptAES (ciphertext : GCMCiphertext) (key : DerivedKey) (nonce : Bytes) : Except String Bytes :=
  match gcmOpen key nonce ciphertext with
  | Except.ok plaintext => Except.ok plaintext
  | Except.error e => Except.error ("failed to decrypt: " ++ e)

/-- Entropy consumed by GenerateUserKeys: the generated RSA keypair in PEM
form (RSA generation and x509/pem marshalling are treated as an opaque
source of the two PEM byte strings) and the random salt and nonce. -/
structure KeyGenEntropy where
  privateKeyPEM : Bytes
  publicKeyPEM : Bytes
  salt : Bytes
  nonce : Bytes
deriving DecidableEq, Repr

/-- Translation of the GeneratedKeys struct from the Go source. -/
structure GeneratedKeys where
  PublicKeyPEM : Base64 Bytes
  EncryptedPrivateKey : Base64 GCMCiphertext
  Salt : Base64 Bytes
  IV : Base64 Bytes
deriving DecidableEq, Repr

/-- Translation of GenerateUserKeys from the Go source: derive an AES key
from the password and a fresh salt via PBKDF2, seal the private-key PEM
under it, and base64-encode every output. -/
def GenerateUserKeys (password : String) (r : KeyGenEntropy) : GeneratedKeys :=
  let encryptionKey := pbkdf2Key password r.salt PBKDF2Iterations AESKeySize
  let sealed := encryptAES r.privateKeyPEM encryptionKey r.nonce
  { PublicKeyPEM := base64Encode r.publicKeyPEM
    EncryptedPrivateKey := base64Encode sealed.1
    Salt := base64Encode r.salt
    IV := base64Encode sealed.2 }

/-- Translation of DecryptPrivateKey from the Go source: base64-decode the
three inputs, re-derive the key from the password and salt, and decrypt. -/
def DecryptPrivateKey (encryptedPrivateKeyBase64 : Base64 GCMCiphertext)
    (saltBase64 : Base64 Bytes) (ivBase64 : Base64 Bytes) (password : String) :
    Except String Bytes :=
  match base64Decode encryptedPrivateKeyBase64 with
  | Except.error e => Except.error ("failed to decode encrypted private key: " ++ e)
  | Except.ok encryptedPrivateKey =>
    match base64Decode saltBase64 with
    | Except.error e => Except.error ("failed to decode salt: " ++ e)
    | Except.ok salt =>
      match base64Decode ivBase64 with
      | Except.error e => Except.error ("failed to decode IV: " ++ e)
      | Except.ok iv =>
        let encryptionKey := pbkdf2Key password salt PBKDF2Iterations AESKeySize
        decryptAES encryptedPrivateKey encryptionKey iv

/-! ## Transfer orchestrator: model of chunkFile in frontend Dashboard.tsx

The TypeScript chunker splits a File into Math.ceil(size / CHUNK_SIZE)
slices, encrypts each with the per-file AES key and a fresh IV, and emits
one self-describing unit per slice.  The WebCrypto primitives are modelled
like the Go ones: an AES-GCM chunk encryption keeps its plaintext body
together with the authentication context; randomness (file id, AES key,
per-chunk IVs) is passed in explicitly. -/

/-- The chunk size constant from Dashboard.tsx (2 MB). -/
def CHUNK_SIZE : Nat := 1024 * 1024 * 2

/-- Model of a WebCrypto AES-256 key produced by generateAESKey. -/
structure AESKey where
  raw : Bytes
deriving DecidableEq, Repr

/-- Model of an encrypted chunk blob produced by encryptChunk (AES-GCM):
the body it seals plus the key and IV the tag binds it to. -/
structure EncryptedBlob where
  body : Bytes
  encKey : AESKey
  encIV : Bytes
deriving DecidableEq, Repr

/-- Model of encryptChunk (chunkBlob, aesKey, iv) from utils/crypto. -/
def encryptChunk (plaintext : Bytes) (key : AESKey) (iv : Bytes) : EncryptedBlob :=
  { body := plaintext, encKey := key, encIV := iv }

/-- Model of arrayBufferToBase64 on an IV: an injective rendering of the
bytes as a string. -/
def arrayBufferToBase64 (b : Bytes) : String := toString b

/-- Model of encryptKeyForRecipient (aesKey, publicKeyPEM): RSA-OAEP wrap
of the AES key under the recipient public key, rendered as a base64
string; modelled as a concrete injective encoding of both inputs. -/
def encryptKeyForRecipient (key : AESKey) (publicKey : String) : String :=
  publicKey ++ ":" ++ toString key.raw

/-- Translation of the encrypted-keys loop of chunkFile: recipients whose
public key resolves get a wrapped key entry; the others are skipped with a
console warning. -/
def buildEncryptedKeys (aesKey : AESKey) (recipientEmails : List String)
    (recipientPublicKeys : List (String × String)) : List (String × String) :=
  recipientEmails.filterMap (fun email =>
    (recipientPublicKeys.lookup email).map (fun pk => (email, encryptKeyForRecipient aesKey pk)))

/-- Translation of the FileChunk record emitted per chunk by chunkFile. -/
structure FileChunkUnit where
  file_id : String
  chunk_index : Nat
  total_chunks : Nat
  chunk_data : EncryptedBlob
  original_filename : String
  file_size : Nat
  chunk_size : Nat
  iv : String
  encrypted_keys : List (String × String)
  mime_type : String
deriving DecidableEq, Repr

/-- Translation of the ChunkedFile record returned by chunkFile (the
original File object is not repeated here). -/
structure ChunkedFile where
  file_id : String
  chunks : List FileChunkUnit
  total_chunks : Nat
deriving DecidableEq, Repr

/-- The byte range of chunk i: file.slice(i * chunkSize,
min(i * chunkSize + chunkSize, file.size)). -/
def chunkRange (file : Bytes) (chunkSize i : Nat) : Bytes :=
  let start := i * chunkSize
  let stop := min (start + chunkSize) file.length
  (file.drop start).take (stop - start)

/-- Translation of chunkFile from Dashboard.tsx.  The file is its byte
content; generateFileId, generateAESKey and generateIV are determinised as
the fileId, aesKey and ivs arguments; the CHUNK_SIZE module constant is
the chunkSize argument. -/
def chunkFile (file : Bytes) (fileName fileMime fileId : String) (aesKey : AESKey)
    (ivs : Nat → Bytes) (recipientEmails : List String)
    (recipientPublicKeys : List (String × String)) (chunkSize : Nat) : ChunkedFile :=
  let totalChunks := (file.length + chunkSize - 1) / chunkSize
  let encryptedKeys := buildEncryptedKeys aesKey recipientEmails recipientPublicKeys
  let mkUnit : Nat → FileChunkUnit := fun i =>
    let chunkBlob := chunkRange file chunkSize i
    let iv := ivs i
    let encryptedData := encryptChunk chunkBlob aesKey iv
    { file_id := fileId
      chunk_index := i
      total_chunks := totalChunks
      chunk_data := encryptedData
      original_filename := fileName
      file_size := file.length
      chunk_size := encryptedData.body.length
      iv := arrayBufferToBase64 iv
      encrypted_keys := encryptedKeys
      mime_type := fileMime }
  let chunks := (List.range totalChunks).map mkUnit
  { file_id := fileId, chunks := chunks, total_chunks := totalChunks }

/-! ## Metadata store: model of the database helpers in
internal/database/users.go over the schema in sql/schema.sql.

A database is the contents of the four tables the ingestion pipeline
touches.  Postgres behaviour follows the schema: file_metadata.file_id is
UNIQUE, file_chunks has UNIQUE(file_id, chunk_index) plus a foreign key on
file_metadata, file_recipients has UNIQUE(file_id, recipient_email), and
Supabase auth.users is unique per (lower-cased) email.  NOW() timestamps
are abstracted to a Boolean completed flag (set or not set). -/

/-- ASCII lower-casing of one character (the case SQL LOWER() and the
email values in play exercise). -/
def lowerChar (c : Char) : Char :=
  if 'A' ≤ c ∧ c ≤ 'Z' then Char.ofNat (c.toNat + 32) else c

/-- Model of SQL LOWER() and Go strings.ToLower on ASCII: lower-case every
character, structurally on the character list. -/
def strToLower (s : String) : String := ⟨s.data.map lowerChar⟩

/-- ASCII whitespace, as trimmed by strings.TrimSpace. -/
def isSpaceChar (c : Char) : Bool :=
  c == ' ' || c == '\t' || c == '\n' || c == '\r'

/-- Model of Go strings.TrimSpace: drop leading and trailing whitespace,
structurally on the character list. -/
def strTrimSpace (s : String) : String :=
  ⟨((s.data.dropWhile isSpaceChar).reverse.dropWhile isSpaceChar).reverse⟩

/-- Decimal digit accumulation: the digits of the list folded into a
number, or none when a non-digit appears. -/
def foldDigits (ds : List Char) : Option Nat :=
  ds.foldl
    (fun acc c => acc.bind (fun n => if c.isDigit then some (n * 10 + (c.toNat - 48)) else none))
    (some 0)

/-- Model of strconv.Atoi and strconv.ParseInt(s, 10, 64): an optional
sign followed by at least one decimal digit (64-bit overflow is not
modelled). -/
def strToInt (s : String) : Option Int :=
  match s.data with
  | [] => none
  | c :: ds =>
    if c == '-' then
      if ds.isEmpty then none else (foldDigits ds).map (fun n => -(Int.ofNat n))
    else if c == '+' then
      if ds.isEmpty then none else (foldDigits ds).map Int.ofNat
    else (foldDigits (c :: ds)).map Int.ofNat

/-- A row of Supabase auth.users (the fields the backend reads). -/
structure AuthUser where
  id : String
  email : String
deriving DecidableEq, Repr

/-- A row of public.file_metadata. -/
structure FileMetadataRow where
  file_id : String
  sender_id : String
  original_filename : String
  file_size : Int
  total_chunks : Int
  mime_type : Option String
  completed : Bool
deriving DecidableEq, Repr

/-- A row of public.file_chunks. -/
structure FileChunkRow where
  file_id : String
  chunk_index : Int
  chunk_size : Int
  storage_path : String
  encryption_iv : String
deriving DecidableEq, Repr

/-- A row of public.file_recipients. -/
structure FileRecipientRow where
  file_id : String
  recipient_id : Option String
  recipient_email : String
  encrypted_file_key : String
deriving DecidableEq, Repr

/-- The metadata-store state: auth.users, the ids present in public.users
(key material elided), and the three file tables. -/
structure DBState where
  authUsers : List AuthUser
  userKeyRows : List String
  fileMetadata : List FileMetadataRow
  fileChunks : List FileChunkRow
  fileRecipients : List FileRecipientRow
deriving DecidableEq, Repr

/-- Translation of database.UserExistsByEmail: case-insensitive email
existence test against auth.users. -/
def UserExistsByEmail (db : DBState) (email : String) : Bool :=
  db.authUsers.any (fun u => strToLower u.email == strToLower email)

/-- Translation of database.GetUserByEmail: case-insensitive lookup in
auth.users. -/
def GetUserByEmail (db : DBState) (email : String) : Except String AuthUser :=
  match db.authUsers.find? (fun u => strToLower u.email == strToLower email) with
  | some u => Except.ok u
  | none => Except.error "user not found"

/-- Translation of database.CreateFileMetadataIfNotExists: INSERT with ON
CONFLICT (file_id) DO NOTHING; the empty mime type becomes NULL. -/
def CreateFileMetadataIfNotExists (db : DBState) (fileID senderID originalFilename : String)
    (fileSize : Int) (totalChunks : Int) (mimeType : String) : DBState :=
  if db.fileMetadata.any (fun r => r.file_id == fileID) then db
  else
    { db with fileMetadata := db.fileMetadata ++
        [{ file_id := fileID, sender_id := senderID, original_filename := originalFilename,
           file_size := fileSize, total_chunks := totalChunks,
           mime_type := if mimeType == "" then none else some mimeType,
           completed := false }] }

/-- Translation of database.CreateFileChunk: a plain INSERT, which Postgres
rejects on the UNIQUE(file_id, chunk_index) constraint or on the foreign
key to file_metadata. -/
def CreateFileChunk (db : DBState) (fileID : String) (chunkIndex : Int) (chunkSize : Int)
    (storagePath encryptionIV : String) : Except String DBState :=
  if db.fileChunks.any (fun r => r.file_id == fileID && r.chunk_index == chunkIndex) then
    Except.error "failed to create file chunk: duplicate key value violates unique constraint"
  else if db.fileMetadata.any (fun r => r.file_id == fileID) then
    Except.ok { db with fileChunks := db.fileChunks ++
      [{ file_id := fileID, chunk_index := chunkIndex, chunk_size := chunkSize,
         storage_path := storagePath, encryption_iv := encryptionIV }] }
  else
    Except.error "failed to create file chunk: foreign key violation"

/-- Translation of database.MarkFileComplete: UPDATE setting completed_at
on every row whose file_id matches (a no-op when no row matches). -/
def MarkFileComplete (db : DBState) (fileID : String) : DBState :=
  { db with fileMetadata :=
      db.fileMetadata.map (fun r => if r.file_id == fileID then { r with completed := true } else r) }

/-- The anonymous recipient-record struct built in SendFileChunkHandler and
passed to database.CreateFileRecipientsIfNotExists. -/
structure RecipientRecordInput where
  Email : String
  EncryptedKey : String
  RecipientID : Option String
deriving DecidableEq, Repr

/-- One INSERT of the CreateFileRecipientsIfNotExists transaction: ON
CONFLICT (file_id, recipient_email) DO NOTHING. -/
def insertRecipientIfAbsent (db : DBState) (fileID : String) (r : RecipientRecordInput) : DBState :=
  if db.fileRecipients.any (fun x => x.file_id == fileID && x.recipient_email == r.Email) then db
  else
    { db with fileRecipients := db.fileRecipients ++
        [{ file_id := fileID, recipient_id := r.RecipientID, recipient_email := r.Email,
           encrypted_file_key := r.EncryptedKey }] }

/-- Translation of database.CreateFileRecipientsIfNotExists: one
insert-if-absent per record, inside one transaction (the model never
aborts, so the transaction always commits). -/
def CreateFileRecipientsIfNotExists (db : DBState) (fileID : String)
    (recipients : List RecipientRecordInput) : DBState :=
  recipients.foldl (fun d r => insertRecipientIfAbsent d fileID r) db

/-! ## Recipient provisioner: model of CreateUserAndSendResetEmail and
createUserWithAdminAPI in internal/handlers/auth.go.

The Supabase admin endpoint creates an auth user and fails with an HTTP
error when an account for the email already exists (its email uniqueness
constraint).  Random password and key generation have no observable
effect on the modelled state; the password-reset notification is
fire-and-forget and its failure is ignored by the Go code. -/

/-- The models.User value returned to the handler. -/
structure ModelsUser where
  ID : String
  Email : String
  FullName : String
deriving DecidableEq, Repr

/-- Model of createUserWithAdminAPI: POST /auth/v1/admin/users, which
inserts a fresh auth user or fails with a non-2xx status when the email is
already registered.  The id Supabase would mint is the freshId argument. -/
def createUserWithAdminAPI (db : DBState) (email freshId : String) :
    Except String (String × DBState) :=
  if UserExistsByEmail db email then
    Except.error "failed to create user via admin API, status: 422"
  else
    Except.ok (freshId, { db with authUsers := db.authUsers ++ [{ id := freshId, email := email }] })

/-- Translation of CreateUserAndSendResetEmail: generate a random password
and keys (no modelled effect), create the account via the admin API
(surfacing its error), store the key row (failure ignored by the Go
code), send the reset email (failure ignored), and return the user. -/
def CreateUserAndSendResetEmail (db : DBState) (email freshId : String) :
    Except String (ModelsUser × DBState) :=
  match createUserWithAdminAPI db email freshId with
  | Except.error e => Except.error e
  | Except.ok (userID, db1) =>
    let db2 := { db1 with userKeyRows := db1.userKeyRows ++ [userID] }
    Except.ok ({ ID := userID, Email := email, FullName := email }, db2)

/-! ## Ingestion pipeline: model of SendFileChunkHandler (part_007).

A request is the parsed multipart form at the granularity the handler
observes: absent form values are the empty string, numeric fields are the
raw strings fed to strconv (modelled by String.toInt?), and the
encrypted_keys field is represented by its json.Unmarshal outcome.  The
process state is the in-memory fileMetadataMap, the database, and the blob
store; per-request nondeterminism (fresh provisioned ids, blob-store and
chunk-INSERT infrastructure outcomes) is an explicit environment. -/

/-- The json.Unmarshal outcome of the encrypted_keys form value: the empty
string (field absent), a non-empty string that fails to parse, or a parsed
email-to-wrapped-key map. -/
inductive KeysField where
  | absent : KeysField
  | malformed : KeysField
  | parsed : List (String × String) → KeysField
deriving DecidableEq, Repr

/-- Whether the raw encrypted_keys form value is the empty string. -/
def KeysField.isAbsent : KeysField → Bool
  | KeysField.absent => true
  | _ => false

/-- The chunk-upload request as the handler observes it: context values
set by the auth middleware, the multipart form values, and the uploaded
file part. -/
structure ChunkUploadRequest where
  user_id : Option String
  user_token : Option String
  file_id : String
  chunk_index : String
  total_chunks : String
  original_filename : String
  file_size : String
  chunk_size : String
  iv : String
  encrypted_keys : KeysField
  mime_type : String
  recipient_emails : List String
  encrypted_chunk : Option Bytes
deriving DecidableEq, Repr

/-- The request after the validation and parsing phase of
SendFileChunkHandler succeeds. -/
structure ParsedChunkRequest where
  senderID : String
  token : String
  fileID : String
  originalFilename : String
  chunkIndex : Int
  totalChunks : Int
  fileSize : Int
  chunkSize : Int
  iv : String
  encryptedKeys : List (String × String)
  mimeType : String
  recipientEmails : List String
  chunk : Bytes
deriving DecidableEq, Repr

/-- An error response produced by RespondWithError. -/
structure HandlerError where
  status : Nat
  message : String
deriving DecidableEq, Repr

/-- The handler response: the success payload of RespondWithJSON or an
error status and message. -/
inductive HandlerResult where
  | ok : String → Int → Int → String → HandlerResult
  | err : Nat → String → HandlerResult
deriving DecidableEq, Repr

/-- Whether a response is the success acknowledgment. -/
def HandlerResult.isOk : HandlerResult → Bool
  | HandlerResult.ok _ _ _ _ => true
  | HandlerResult.err _ _ => false

/-- Translation of the validation and parsing prefix of
SendFileChunkHandler (context checks, required-field check, strconv
parses, encrypted_keys unmarshal, recipient list and file part), in source
order.  There is no range check on the parsed chunk index. -/
def validateChunkUpload (req : ChunkUploadRequest) : Except HandlerError ParsedChunkRequest :=
  match req.user_id with
  | none => Except.error ⟨401, "User not authenticated"⟩
  | some senderID =>
    match req.user_token with
    | none => Except.error ⟨401, "User token not found"⟩
    | some token =>
      if req.file_id == "" || req.chunk_index == "" || req.total_chunks == ""
          || req.original_filename == "" || req.iv == "" || req.encrypted_keys.isAbsent then
        Except.error ⟨400, "Missing required fields"⟩
      else
        match strToInt req.chunk_index with
        | none => Except.error ⟨400, "Invalid chunk_index"⟩
        | some chunkIndex =>
          match strToInt req.total_chunks with
          | none => Except.error ⟨400, "Invalid total_chunks"⟩
          | some totalChunks =>
            match strToInt req.file_size with
            | none => Except.error ⟨400, "Invalid file_size"⟩
            | some fileSize =>
              match strToInt req.chunk_size with
              | none => Except.error ⟨400, "Invalid chunk_size"⟩
              | some chunkSize =>
                match req.encrypted_keys with
                | KeysField.absent =>
                  Except.error ⟨400, "Missing required fields"⟩
                | KeysField.malformed =>
                  Except.error { status := 400, message := "Invalid encrypted_keys format" }
                | KeysField.parsed encryptedKeys =>
                  if req.recipient_emails.length == 0 then
                    Except.error ⟨400, "At least one recipient email is required"⟩
                  else
                    match req.encrypted_chunk with
                    | none => Except.error ⟨400, "Failed to get encrypted chunk"⟩
                    | some chunk =>
                      Except.ok ⟨senderID, token, req.file_id, req.original_filename,
                        chunkIndex, totalChunks, fileSize, chunkSize, req.iv,
                        encryptedKeys, req.mime_type, req.recipient_emails, chunk⟩

/-- Per-request environment: the ids Supabase mints for provisioned
emails, and the infrastructure outcomes of the blob-store write and of the
chunk INSERT. -/
structure HandlerEnv where
  freshId : String → String
  storageOk : Bool
  chunkInsertFault : Bool

/-- The ingestion-pipeline process state: the in-memory fileMetadataMap
guarded by fileMetadataLock, the metadata store, and the blob store. -/
structure ServerState where
  fileMetadataMap : List String
  db : DBState
  blobs : List (String × Bytes)
deriving DecidableEq, Repr

/-- Translation of the recipient loop of SendFileChunkHandler: trim each
email, skip empty ones, resolve or provision the account, attach the
wrapped key (empty string when the map has none), and collect the records
in order.  Returns the final database; a provisioning error aborts the
loop, keeping the work already persisted. -/
def buildRecipientRecords (env : HandlerEnv) (db : DBState) (emails : List String)
    (encryptedKeys : List (String × String)) :
    Except String (List RecipientRecordInput) × DBState :=
  match emails with
  | [] => (Except.ok [], db)
  | e :: rest =>
    let email := strTrimSpace e
    if email == "" then buildRecipientRecords env db rest encryptedKeys
    else
      if UserExistsByEmail db email then
        let recipientID := match GetUserByEmail db email with
          | Except.ok u => some u.id
          | Except.error _ => none
        let encryptedKey := (encryptedKeys.lookup email).getD ""
        match buildRecipientRecords env db rest encryptedKeys with
        | (Except.error er, db') => (Except.error er, db')
        | (Except.ok recs, db') =>
          (Except.ok ((⟨email, encryptedKey, recipientID⟩ : RecipientRecordInput) :: recs), db')
      else
        match CreateUserAndSendResetEmail db email (env.freshId email) with
        | Except.error er => (Except.error er, db)
        | Except.ok (newUser, db1) =>
          let encryptedKey := (encryptedKeys.lookup email).getD ""
          match buildRecipientRecords env db1 rest encryptedKeys with
          | (Except.error er, db') => (Except.error er, db')
          | (Except.ok recs, db') =>
            (Except.ok ((⟨email, encryptedKey, some newUser.ID⟩ : RecipientRecordInput) :: recs), db')

/-- Translation of the fileMetadataLock critical section of
SendFileChunkHandler: skip when the in-memory map already records the
file, otherwise create the metadata row, build and insert the recipient
records, and mark the file in the map.  The mutex serialises this section,
so it is one atomic step of the model. -/
def metadataPhase (env : HandlerEnv) (st : ServerState) (p : ParsedChunkRequest) :
    Option HandlerError × ServerState :=
  if st.fileMetadataMap.contains p.fileID then (none, st)
  else
    let db1 := CreateFileMetadataIfNotExists st.db p.fileID p.senderID p.originalFilename
      p.fileSize p.totalChunks p.mimeType
    match buildRecipientRecords env db1 p.recipientEmails p.encryptedKeys with
    | (Except.error _, db2) =>
      (some ⟨500, "Failed to create user"⟩, { st with db := db2 })
    | (Except.ok recs, db2) =>
      let db3 := if recs.length == 0 then db2 else CreateFileRecipientsIfNotExists db2 p.fileID recs
      (none, { st with db := db3, fileMetadataMap := p.fileID :: st.fileMetadataMap })

/-- Model of storage.UploadEncryptedChunk: the locator derived from the
file id and chunk index, and the Supabase Storage upload whose
infrastructure outcome is the ok argument. -/
def UploadEncryptedChunk (ok : Bool) (st : ServerState) (fileID : String) (chunkIndex : Int)
    (data : Bytes) : Except String (String × ServerState) :=
  let storagePath := fileID ++ "/chunk_" ++ toString chunkIndex ++ ".enc"
  if ok then
    Except.ok (storagePath, { st with blobs := st.blobs ++ [(storagePath, data)] })
  else Except.error "failed to upload chunk to storage"

/-- Translation of the body of SendFileChunkHandler after validation:
metadata critical section, blob upload, chunk INSERT (whose infrastructure
fault is env.chunkInsertFault), and completion detection on the chunk
whose index equals total chunks minus one (the MarkFileComplete error is
only logged). -/
def processChunk (env : HandlerEnv) (st : ServerState) (p : ParsedChunkRequest) :
    HandlerResult × ServerState :=
  match metadataPhase env st p with
  | (some e, st1) => (HandlerResult.err e.status e.message, st1)
  | (none, st1) =>
    match UploadEncryptedChunk env.storageOk st1 p.fileID p.chunkIndex p.chunk with
    | Except.error _ => (HandlerResult.err 500 "Failed to upload chunk", st1)
    | Except.ok (storagePath, st2) =>
      if env.chunkInsertFault then
        (HandlerResult.err 500 "Failed to store chunk metadata", st2)
      else
        match CreateFileChunk st2.db p.fileID p.chunkIndex p.chunkSize storagePath p.iv with
        | Except.error _ => (HandlerResult.err 500 "Failed to store chunk metadata", st2)
        | Except.ok db1 =>
          let st3 := { st2 with db := db1 }
          let st4 := if p.chunkIndex == p.totalChunks - 1 then
              { st3 with db := MarkFileComplete st3.db p.fileID }
            else st3
          (HandlerResult.ok p.fileID p.chunkIndex p.totalChunks storagePath, st4)

/-- Translation of SendFileChunkHandler: validate, then process; a
validation error is returned with no state change. -/
def SendFileChunkHandler (env : HandlerEnv) (st : ServerState) (req : ChunkUploadRequest) :
    HandlerResult × ServerState :=
  match validateChunkUpload req with
  | Except.error e => (HandlerResult.err e.status e.message, st)
  | Except.ok p => processChunk env st p

/-- Sequential processing of a list of parsed requests: the serialisation
order the per-file mutex and the store impose on racing requests. -/
def processChunkSeq (env : HandlerEnv) (st : ServerState) (ps : List ParsedChunkRequest) :
    List HandlerResult × ServerState :=
  match ps with
  | [] => ([], st)
  | p :: rest =>
    let first := processChunk env st p
    let restOut := processChunkSeq env first.2 rest
    (first.1 :: restOut.1, restOut.2)

/-- Number of file_metadata rows for a file id. -/
def countFileMetadata (db : DBState) (fileID : String) : Nat :=
  db.fileMetadata.countP (fun r => r.file_id == fileID)

/-- Number of file_chunks rows for a (file id, chunk index) pair. -/
def countFileChunks (db : DBState) (fileID : String) (chunkIndex : Int) : Nat :=
  db.fileChunks.countP (fun r => r.file_id == fileID && r.chunk_index == chunkIndex)

/-- Number of file_recipients rows for a (file id, recipient email) pair. -/
def countFileRecipients (db : DBState) (fileID email : String) : Nat :=
  db.fileRecipients.countP (fun r => r.file_id == fileID && r.recipient_email == email)

/-- Number of auth.users accounts for an email (case-insensitive). -/
def countAccounts (db : DBState) (email : String) : Nat :=
  db.authUsers.countP (fun u => strToLower u.email == strToLower email)

/-- Whether some file_metadata row for the file id has completed_at set. -/
def metadataCompleted (db : DBState) (fileID : String) : Bool :=
  db.fileMetadata.any (fun r => r.file_id == fileID && r.completed)

/-! ### Concrete example data used in witnesses and counterexamples -/

/-- A healthy environment: storage and database infrastructure up. -/
def exEnv : HandlerEnv := ⟨fun e => "uid-" ++ e, true, false⟩

/-- An environment whose blob-store write fails. -/
def exBadStorageEnv : HandlerEnv := ⟨fun e => "uid-" ++ e, false, false⟩

/-- The empty metadata store. -/
def exEmptyDB : DBState := ⟨[], [], [], [], []⟩

/-- The fresh process state. -/
def exEmptyState : ServerState := ⟨[], exEmptyDB, []⟩

/-- A store already holding one auth account for bob. -/
def exDBWithBob : DBState := ⟨[⟨"u1", "bob@x.com"⟩], ["u1"], [], [], []⟩

/-- A fully populated upload request whose chunk_index 5 lies outside
[0, total_chunks) for total_chunks 3. -/
def exOutOfRangeReq : ChunkUploadRequest :=
  ⟨some "sender-1", some "tok", "f1", "5", "3", "doc.pdf", "5000000", "2000000", "iv1",
    KeysField.parsed [("alice@x.com", "k1")], "application/pdf", ["alice@x.com"], some [1, 2, 3]⟩

/-- An upload request with the chunk_index form value missing. -/
def exMissingFieldReq : ChunkUploadRequest :=
  ⟨some "sender-1", some "tok", "f1", "", "3", "doc.pdf", "5000000", "2000000", "iv1",
    KeysField.parsed [("alice@x.com", "k1")], "application/pdf", ["alice@x.com"], some [1, 2, 3]⟩

/-- A parsed request for the last chunk (index 2 of 3) of file f2. -/
def exReqLast : ParsedChunkRequest :=
  ⟨"sender-1", "tok", "f2", "doc.pdf", 2, 3, 5000000, 2000000, "iv2",
    [("alice@x.com", "k1")], "application/pdf", ["alice@x.com"], [7, 7]⟩

/-- A parsed request for chunk 1 of 3 of file f1, naming an alice with a
wrapped key and a bob without one. -/
def exReqMid : ParsedChunkRequest :=
  ⟨"sender-1", "tok", "f1", "doc.pdf", 1, 3, 5000000, 2000000, "iv1",
    [("alice@x.com", "k1")], "application/pdf", ["alice@x.com", "bob@x.com"], [7, 7]⟩

/-- A parsed request for chunk 0 of 3 of file f1. -/
def exReqFirst : ParsedChunkRequest :=
  ⟨"sender-1", "tok", "f1", "doc.pdf", 0, 3, 5000000, 2000000, "iv0",
    [("alice@x.com", "k1")], "application/pdf", ["alice@x.com", "bob@x.com"], [7, 7]⟩

/-- A state in which file f1 already has metadata, one recipient row and
the chunk row with index 1. -/
def exStateWithChunk : ServerState :=
  ⟨["f1"],
    ⟨[⟨"u1", "alice@x.com"⟩], ["u1"],
      [⟨"f1", "sender-1", "doc.pdf", 5000000, 3, some "application/pdf", false⟩],
      [⟨"f1", 1, 2000000, "f1/chunk_1.enc", "iv1"⟩],
      [⟨"f1", some "u1", "alice@x.com", "k1"⟩]⟩,
    [("f1/chunk_1.enc", [9])]⟩

end SDT

namespace SDT

/-- Each chunk range equals take chunkSize of the suffix at its start. -/
theorem chunkRange_eq_take (file : Bytes) (chunkSize i : Nat) :
    chunkRange file chunkSize i = (file.drop (i * chunkSize)).take chunkSize := by
  simp only [chunkRange]
  rw [List.take_eq_take, List.length_drop]
  omega

/-- Concatenating the chunk ranges starting at offset s recovers the
suffix of the file at s, provided the ranges reach past the end. -/
theorem flatten_chunkRanges (l : Bytes) (C : Nat) :
    ∀ (n s : Nat), l.length ≤ s + n * C →
      ((List.range n).map (fun i => (l.drop (s + i * C)).take C)).flatten = l.drop s := by
  intro n
  induction n with
  | zero =>
    intro s h
    rw [Nat.zero_mul, Nat.add_zero] at h
    simp only [List.range_zero, List.map_nil, List.flatten_nil]
    exact (List.drop_eq_nil_of_le h).symm
  | succ n ih =>
    intro s h
    rw [Nat.succ_mul] at h
    rw [List.range_succ_eq_map, List.map_cons, List.map_map, List.flatten_cons]
    have hmap : (List.range n).map ((fun i => (l.drop (s + i * C)).take C) ∘ Nat.succ)
        = (List.range n).map (fun i => (l.drop ((s + C) + i * C)).take C) := by
      apply List.map_congr_left
      intro i _
      simp only [Function.comp_apply]
      rw [show s + Nat.succ i * C = s + C + i * C from by rw [Nat.succ_mul]; omega]
    rw [hmap, ih (s + C) (by omega)]
    rw [Nat.zero_mul, Nat.add_zero]
    have hdd : (l.drop s).drop C = l.drop (s + C) := by
      rw [List.drop_drop]
    rw [← hdd]
    exact List.take_append_drop C (l.drop s)

/-- The ceiling division bound: n chunks of size C cover len bytes. -/
theorem ceil_div_mul_ge (len C : Nat) (hC : 0 < C) : len ≤ (len + C - 1) / C * C := by
  have h1 : C * ((len + C - 1) / C) + (len + C - 1) % C = len + C - 1 :=
    Nat.div_add_mod (len + C - 1) C
  have h2 : (len + C - 1) % C < C := Nat.mod_lt _ hC
  rw [Nat.mul_comm] at h1
  omega

/-- Claim C8: for every file of size S and chunk size C over 0, chunkFile
splits the file into exactly ceil(S / C) contiguous, non-overlapping byte
ranges covering the file (their concatenation is the file), assigns them
dense 0-based chunk indices, and every emitted unit carries the same
file_id and the same total_chunks. -/
theorem C8_chunk_split (file : Bytes) (fileName fileMime fileId : String) (aesKey : AESKey)
    (ivs : Nat → Bytes) (recipientEmails : List String)
    (recipientPublicKeys : List (String × String)) (chunkSize : Nat) (hC : 0 < chunkSize) :
    ∀ cf, cf = chunkFile file fileName fileMime fileId aesKey ivs recipientEmails
        recipientPublicKeys chunkSize →
      cf.total_chunks = (file.length + chunkSize - 1) / chunkSize
      ∧ cf.chunks.length = cf.total_chunks
      ∧ cf.chunks.map FileChunkUnit.chunk_index = List.range cf.total_chunks
      ∧ (∀ u ∈ cf.chunks,
          u.chunk_data.body = chunkRange file chunkSize u.chunk_index
          ∧ u.file_id = fileId ∧ u.total_chunks = cf.total_chunks)
      ∧ (cf.chunks.map (fun u => u.chunk_data.body)).flatten = file := by
  intro cf hcf
  subst hcf
  have hb : file.length ≤ 0 + ((file.length + chunkSize - 1) / chunkSize) * chunkSize := by
    have := ceil_div_mul_ge file.length chunkSize hC
    omega
  refine ⟨rfl, by simp [chunkFile], ?_, ?_, ?_⟩
  · simp only [chunkFile, List.map_map]
    conv_rhs => rw [← List.map_id (List.range ((file.length + chunkSize - 1) / chunkSize))]
    exact List.map_congr_left (fun i _ => rfl)
  · intro u hu
    simp only [chunkFile] at hu
    rcases List.mem_map.mp hu with ⟨i, _, rfl⟩
    exact ⟨rfl, rfl, rfl⟩
  · simp only [chunkFile, List.map_map]
    trans (List.map (fun i => (file.drop (0 + i * chunkSize)).take chunkSize)
        (List.range ((file.length + chunkSize - 1) / chunkSize))).flatten
    · congr 1
      apply List.map_congr_left
      intro i _
      simp only [Function.comp_apply, Nat.zero_add]
      exact chunkRange_eq_take file chunkSize i
    · exact (flatten_chunkRanges file chunkSize _ 0 hb).trans (List.drop_zero file)

/-- Witness for C8 at a concrete five-byte file with two-byte chunks. -/
theorem C8_chunk_split_witness :
    (0 < 2) ∧
    (∀ cf, cf = chunkFile [10, 20, 30, 40, 50] "f.txt" "text/plain" "fid-1" ⟨[9]⟩
        (fun _ => [1]) ["a@x.com"] [("a@x.com", "pk")] 2 →
      cf.total_chunks = (([10, 20, 30, 40, 50] : Bytes).length + 2 - 1) / 2
      ∧ cf.chunks.length = cf.total_chunks
      ∧ cf.chunks.map FileChunkUnit.chunk_index = List.range cf.total_chunks
      ∧ (∀ u ∈ cf.chunks,
          u.chunk_data.body = chunkRange [10, 20, 30, 40, 50] 2 u.chunk_index
          ∧ u.file_id = "fid-1" ∧ u.total_chunks = cf.total_chunks)
      ∧ (cf.chunks.map (fun u => u.chunk_data.body)).flatten = [10, 20, 30, 40, 50]) :=
  ⟨by decide, C8_chunk_split [10, 20, 30, 40, 50] "f.txt" "text/plain" "fid-1" ⟨[9]⟩
    (fun _ => [1]) ["a@x.com"] [("a@x.com", "pk")] 2 (by decide)⟩

/-! ### Effect lemmas for the metadata-store operations -/

/-- A list satisfies any p exactly when countP p is positive. -/
theorem any_eq_true_iff_countP_pos {α : Type} (l : List α) (p : α → Bool) :
    l.any p = true ↔ 0 < l.countP p := by
  rw [List.any_eq_true, List.countP_pos]

/-- A list fails any p exactly when countP p is zero. -/
theorem any_eq_false_iff_countP_zero {α : Type} (l : List α) (p : α → Bool) :
    l.any p = false ↔ l.countP p = 0 := by
  rw [List.any_eq_false, List.countP_eq_zero]

/-- CreateFileMetadataIfNotExists leaves the other tables unchanged. -/
theorem CreateFileMetadataIfNotExists_tables (db : DBState) (fid sid fn : String)
    (fs tc : Int) (mt : String) :
    (CreateFileMetadataIfNotExists db fid sid fn fs tc mt).fileChunks = db.fileChunks
    ∧ (CreateFileMetadataIfNotExists db fid sid fn fs tc mt).fileRecipients = db.fileRecipients
    ∧ (CreateFileMetadataIfNotExists db fid sid fn fs tc mt).authUsers = db.authUsers := by
  unfold CreateFileMetadataIfNotExists
  split <;> exact ⟨rfl, rfl, rfl⟩

/-- CreateFileMetadataIfNotExists creates the row only when absent. -/
theorem CreateFileMetadataIfNotExists_count (db : DBState) (fid sid fn : String)
    (fs tc : Int) (mt : String) :
    countFileMetadata (CreateFileMetadataIfNotExists db fid sid fn fs tc mt) fid
      = if countFileMetadata db fid = 0 then 1 else countFileMetadata db fid := by
  unfold CreateFileMetadataIfNotExists countFileMetadata
  split
  case isTrue h =>
    have hpos := (any_eq_true_iff_countP_pos _ _).mp h
    rw [if_neg (by omega)]
  case isFalse h =>
    have h0 := (any_eq_false_iff_countP_zero _ _).mp (Bool.eq_false_iff.mpr h)
    rw [List.countP_append, h0, if_pos rfl]
    simp

/-- CreateFileMetadataIfNotExists never sets completed_at. -/
theorem CreateFileMetadataIfNotExists_completed (db : DBState) (fid sid fn : String)
    (fs tc : Int) (mt : String) (f : String) :
    metadataCompleted (CreateFileMetadataIfNotExists db fid sid fn fs tc mt) f
      = metadataCompleted db f := by
  unfold CreateFileMetadataIfNotExists metadataCompleted
  split
  · rfl
  · simp

/-- MarkFileComplete only rewrites the completed flag: all row counts and
the other tables are unchanged. -/
theorem MarkFileComplete_tables (db : DBState) (fid : String) :
    (MarkFileComplete db fid).fileChunks = db.fileChunks
    ∧ (MarkFileComplete db fid).fileRecipients = db.fileRecipients
    ∧ (MarkFileComplete db fid).authUsers = db.authUsers := ⟨rfl, rfl, rfl⟩

/-- MarkFileComplete preserves the per-file metadata row count. -/
theorem MarkFileComplete_count (db : DBState) (fid f : String) :
    countFileMetadata (MarkFileComplete db fid) f = countFileMetadata db f := by
  unfold MarkFileComplete countFileMetadata
  rw [List.countP_map]
  apply List.countP_congr
  intro a _
  by_cases h : a.file_id = fid <;> simp [h]

/-- MarkFileComplete sets completed_at on the file when a row exists. -/
theorem MarkFileComplete_completed_self (db : DBState) (fid : String)
    (h : 0 < countFileMetadata db fid) :
    metadataCompleted (MarkFileComplete db fid) fid = true := by
  unfold MarkFileComplete metadataCompleted
  rcases List.countP_pos.mp h with ⟨a, ha, pa⟩
  apply List.any_eq_true.mpr
  refine ⟨if a.file_id == fid then { a with completed := true } else a, List.mem_map.mpr ⟨a, ha, rfl⟩, ?_⟩
  simp [pa]

/-- CreateFileChunk succeeds exactly on a fresh (file id, index) pair with
an existing metadata row, appending the one chunk row. -/
theorem CreateFileChunk_ok (db : DBState) (fid : String) (idx cs : Int) (sp iv : String)
    (hdup : countFileChunks db fid idx = 0) (hfk : 0 < countFileMetadata db fid) :
    CreateFileChunk db fid idx cs sp iv
      = Except.ok { db with fileChunks := db.fileChunks ++
          [{ file_id := fid, chunk_index := idx, chunk_size := cs,
             storage_path := sp, encryption_iv := iv }] } := by
  unfold CreateFileChunk
  rw [if_neg, if_pos]
  · exact (any_eq_true_iff_countP_pos _ _).mpr hfk
  · intro hany
    have := (any_eq_true_iff_countP_pos _ _).mp hany
    unfold countFileChunks at hdup
    omega

/-- CreateFileChunk rejects a duplicate (file id, index) pair. -/
theorem CreateFileChunk_dup (db : DBState) (fid : String) (idx cs : Int) (sp iv : String)
    (hdup : 0 < countFileChunks db fid idx) :
    CreateFileChunk db fid idx cs sp iv
      = Except.error "failed to create file chunk: duplicate key value violates unique constraint" := by
  unfold CreateFileChunk
  rw [if_pos ((any_eq_true_iff_countP_pos _ _).mpr hdup)]

/-- Appending one chunk row raises exactly the count of its own key. -/
theorem countFileChunks_append (db : DBState) (fid : String) (idx cs : Int) (sp iv : String)
    (f : String) (i : Int) :
    countFileChunks { db with fileChunks := db.fileChunks ++
        [{ file_id := fid, chunk_index := idx, chunk_size := cs,
           storage_path := sp, encryption_iv := iv }] } f i
      = countFileChunks db f i + (if f = fid ∧ i = idx then 1 else 0) := by
  unfold countFileChunks
  rw [List.countP_append]
  congr 1
  by_cases hf : f = fid <;> by_cases hi : i = idx
  · simp [List.countP_cons, hf, hi]
  · simp [List.countP_cons, hf, hi]
    exact fun h => hi h.symm
  · simp [List.countP_cons, hf, hi]
    exact fun h => hf h.symm
  · simp [List.countP_cons, hf, hi]
    exact fun h => absurd h.symm hf

/-- One insert-if-absent changes only the count of its own key, and only
from zero to one. -/
theorem insertRecipientIfAbsent_count (db : DBState) (fid : String) (r : RecipientRecordInput)
    (t : String) :
    countFileRecipients (insertRecipientIfAbsent db fid r) fid t
      = if r.Email = t ∧ countFileRecipients db fid t = 0 then 1
        else countFileRecipients db fid t := by
  by_cases he : r.Email = t
  · subst he
    by_cases h0 : countFileRecipients db fid r.Email = 0
    · rw [if_pos ⟨rfl, h0⟩]
      unfold insertRecipientIfAbsent
      rw [if_neg]
      · unfold countFileRecipients at h0 ⊢
        rw [List.countP_append, h0]
        simp [List.countP_cons]
      · intro hany
        have := (any_eq_true_iff_countP_pos _ _).mp hany
        unfold countFileRecipients at h0
        omega
    · rw [if_neg (fun hc => h0 hc.2)]
      unfold insertRecipientIfAbsent
      rw [if_pos]
      · apply (any_eq_true_iff_countP_pos _ _).mpr
        unfold countFileRecipients at h0
        omega
  · rw [if_neg (fun hc => he hc.1)]
    unfold insertRecipientIfAbsent
    split
    · rfl
    · unfold countFileRecipients
      rw [List.countP_append]
      simp [List.countP_cons, he]

/-- One insert-if-absent leaves the other tables unchanged. -/
theorem insertRecipientIfAbsent_tables (db : DBState) (fid : String) (r : RecipientRecordInput) :
    (insertRecipientIfAbsent db fid r).fileMetadata = db.fileMetadata
    ∧ (insertRecipientIfAbsent db fid r).fileChunks = db.fileChunks
    ∧ (insertRecipientIfAbsent db fid r).authUsers = db.authUsers := by
  unfold insertRecipientIfAbsent
  split <;> exact ⟨rfl, rfl, rfl⟩

/-- The recipient transaction creates the (file, email) row exactly when
it was absent and the email is named, and never duplicates it. -/
theorem CreateFileRecipientsIfNotExists_count (fid t : String) :
    ∀ (recs : List RecipientRecordInput) (db : DBState),
      countFileRecipients (CreateFileRecipientsIfNotExists db fid recs) fid t
        = if countFileRecipients db fid t = 0 ∧ t ∈ recs.map RecipientRecordInput.Email then 1
          else countFileRecipients db fid t := by
  intro recs
  induction recs with
  | nil =>
    intro db
    simp [CreateFileRecipientsIfNotExists]
  | cons r rest ih =>
    intro db
    have hstep : CreateFileRecipientsIfNotExists db fid (r :: rest)
        = CreateFileRecipientsIfNotExists (insertRecipientIfAbsent db fid r) fid rest := rfl
    rw [hstep, ih, insertRecipientIfAbsent_count]
    by_cases he : r.Email = t
    · subst he
      by_cases h0 : countFileRecipients db fid r.Email = 0
      · have hI : r.Email = r.Email ∧ countFileRecipients db fid r.Email = 0 := ⟨rfl, h0⟩
        rw [if_pos hI]
        have hL : ¬ ((1 : Nat) = 0 ∧ r.Email ∈ rest.map RecipientRecordInput.Email) :=
          fun hx => Nat.one_ne_zero hx.1
        have hR : countFileRecipients db fid r.Email = 0
            ∧ r.Email ∈ (r :: rest).map RecipientRecordInput.Email := ⟨h0, by simp⟩
        rw [if_neg hL, if_pos hR]
      · have hI : ¬ (r.Email = r.Email ∧ countFileRecipients db fid r.Email = 0) :=
          fun hx => h0 hx.2
        rw [if_neg hI]
        have hL : ¬ (countFileRecipients db fid r.Email = 0
            ∧ r.Email ∈ rest.map RecipientRecordInput.Email) := fun hx => h0 hx.1
        have hR : ¬ (countFileRecipients db fid r.Email = 0
            ∧ r.Email ∈ (r :: rest).map RecipientRecordInput.Email) := fun hx => h0 hx.1
        rw [if_neg hL, if_neg hR]
    · have hmem : (t ∈ (r :: rest).map RecipientRecordInput.Email)
          ↔ (t ∈ rest.map RecipientRecordInput.Email) := by
        simp only [List.map_cons, List.mem_cons]
        constructor
        · rintro (h | h)
          · exact absurd h.symm he
          · exact h
        · exact Or.inr
      have hI : ¬ (r.Email = t ∧ countFileRecipients db fid t = 0) := fun hx => he hx.1
      rw [if_neg hI]
      by_cases hc : countFileRecipients db fid t = 0 ∧ t ∈ rest.map RecipientRecordInput.Email
      · have hR : countFileRecipients db fid t = 0
            ∧ t ∈ (r :: rest).map RecipientRecordInput.Email := ⟨hc.1, hmem.mpr hc.2⟩
        rw [if_pos hc, if_pos hR]
      · have hR : ¬ (countFileRecipients db fid t = 0
            ∧ t ∈ (r :: rest).map RecipientRecordInput.Email) :=
          fun hx => hc ⟨hx.1, hmem.mp hx.2⟩
        rw [if_neg hc, if_neg hR]

/-- The recipient transaction leaves the other tables unchanged. -/
theorem CreateFileRecipientsIfNotExists_tables (fid : String) :
    ∀ (recs : List RecipientRecordInput) (db : DBState),
      (CreateFileRecipientsIfNotExists db fid recs).fileMetadata = db.fileMetadata
      ∧ (CreateFileRecipientsIfNotExists db fid recs).fileChunks = db.fileChunks
      ∧ (CreateFileRecipientsIfNotExists db fid recs).authUsers = db.authUsers := by
  intro recs
  induction recs with
  | nil => intro db; exact ⟨rfl, rfl, rfl⟩
  | cons r rest ih =>
    intro db
    have h := ih (insertRecipientIfAbsent db fid r)
    have hins := insertRecipientIfAbsent_tables db fid r
    exact ⟨h.1.trans hins.1, h.2.1.trans hins.2.1, h.2.2.trans hins.2.2⟩

/-- Every recipient row after the transaction was already present or is
one of the records being inserted, with file id fid. -/
theorem CreateFileRecipientsIfNotExists_rows (fid : String) :
    ∀ (recs : List RecipientRecordInput) (db : DBState),
      ∀ row ∈ (CreateFileRecipientsIfNotExists db fid recs).fileRecipients,
        row ∈ db.fileRecipients
        ∨ ∃ r ∈ recs, row = (⟨fid, r.RecipientID, r.Email, r.EncryptedKey⟩ : FileRecipientRow) := by
  intro recs
  induction recs with
  | nil =>
    intro db row hrow
    exact Or.inl hrow
  | cons r rest ih =>
    intro db row hrow
    rcases ih (insertRecipientIfAbsent db fid r) row hrow with hin | ⟨r', hr', heq⟩
    · unfold insertRecipientIfAbsent at hin
      split at hin
      · exact Or.inl hin
      · rcases List.mem_append.mp hin with hin | hin
        · exact Or.inl hin
        · rcases List.mem_singleton.mp hin with rfl
          exact Or.inr ⟨r, List.mem_cons_self r rest, rfl⟩
    · exact Or.inr ⟨r', List.mem_cons_of_mem r hr', heq⟩

/-- The recipient loop of the handler never fails in the model (the
provisioning branch is guarded by the existence check), leaves the file
tables unchanged, emits one record per trimmed non-empty email in order,
and attaches the looked-up wrapped key with empty-string default. -/
theorem buildRecipientRecords_spec (env : HandlerEnv) (keys : List (String × String)) :
    ∀ (emails : List String) (db : DBState),
      ∃ recs db', buildRecipientRecords env db emails keys = (Except.ok recs, db')
        ∧ db'.fileMetadata = db.fileMetadata
        ∧ db'.fileChunks = db.fileChunks
        ∧ db'.fileRecipients = db.fileRecipients
        ∧ recs.map RecipientRecordInput.Email = (emails.map strTrimSpace).filter (fun s => s != "")
        ∧ (∀ r ∈ recs, r.EncryptedKey = (keys.lookup r.Email).getD "") := by
  intro emails
  induction emails with
  | nil =>
    intro db
    exact ⟨[], db, rfl, rfl, rfl, rfl, rfl, fun r hr => absurd hr (List.not_mem_nil r)⟩
  | cons e rest ih =>
    intro db
    by_cases he : strTrimSpace e = ""
    · obtain ⟨recs, db', heq, h1, h2, h3, h4, h5⟩ := ih db
      refine ⟨recs, db', ?_, h1, h2, h3, ?_, h5⟩
      · simp only [buildRecipientRecords, he]
        simpa using heq
      · rw [h4]
        simp [he]
    · rcases hex : UserExistsByEmail db (strTrimSpace e) with _ | _
      · -- account absent: provision then recurse from the grown database
        obtain ⟨recs, db', heq, h1, h2, h3, h4, h5⟩ :=
          ih { db with
            authUsers := db.authUsers ++ [{ id := env.freshId (strTrimSpace e), email := strTrimSpace e }],
            userKeyRows := db.userKeyRows ++ [env.freshId (strTrimSpace e)] }
        refine ⟨⟨strTrimSpace e, (keys.lookup (strTrimSpace e)).getD "", some (env.freshId (strTrimSpace e))⟩ :: recs, db',
          ?_, h1, h2, h3, ?_, ?_⟩
        · simp only [buildRecipientRecords, CreateUserAndSendResetEmail, createUserWithAdminAPI,
            hex, he]
          simp only [beq_iff_eq, he, if_false, Bool.false_eq_true, if_false]
          rw [heq]
        · simp [h4, he]
        · intro r hr
          rcases List.mem_cons.mp hr with rfl | hr
          · rfl
          · exact h5 r hr
      · -- account present: resolve then recurse from the same database
        obtain ⟨recs, db', heq, h1, h2, h3, h4, h5⟩ := ih db
        refine ⟨⟨strTrimSpace e, (keys.lookup (strTrimSpace e)).getD "",
          match GetUserByEmail db (strTrimSpace e) with
          | Except.ok u => some u.id
          | Except.error _ => none⟩ :: recs, db', ?_, h1, h2, h3, ?_, ?_⟩
        · simp only [buildRecipientRecords, hex, he]
          simp only [beq_iff_eq, he, if_false, Bool.false_eq_true, if_false, if_true]
          rw [heq]
        · simp [h4, he]
        · intro r hr
          rcases List.mem_cons.mp hr with rfl | hr
          · rfl
          · exact h5 r hr

/-- When the in-memory map already records the file, the critical section
is a no-op. -/
theorem metadataPhase_skip (env : HandlerEnv) (st : ServerState) (p : ParsedChunkRequest)
    (h : st.fileMetadataMap.contains p.fileID = true) :
    metadataPhase env st p = (none, st) := by
  unfold metadataPhase
  rw [if_pos h]

/-- When the in-memory map does not record the file, the critical section
succeeds, marks the map, creates the metadata row if absent, creates one
recipient row per trimmed non-empty named email if absent, and touches
nothing else. -/
theorem metadataPhase_fresh (env : HandlerEnv) (st : ServerState) (p : ParsedChunkRequest)
    (h : st.fileMetadataMap.contains p.fileID = false) :
    ∃ st', metadataPhase env st p = (none, st')
      ∧ st'.fileMetadataMap = p.fileID :: st.fileMetadataMap
      ∧ st'.blobs = st.blobs
      ∧ st'.db.fileChunks = st.db.fileChunks
      ∧ countFileMetadata st'.db p.fileID
          = (if countFileMetadata st.db p.fileID = 0 then 1 else countFileMetadata st.db p.fileID)
      ∧ (∀ f, metadataCompleted st'.db f = metadataCompleted st.db f)
      ∧ (∀ t, countFileRecipients st'.db p.fileID t
          = if countFileRecipients st.db p.fileID t = 0
              ∧ t ∈ (p.recipientEmails.map strTrimSpace).filter (fun s => s != "") then 1
            else countFileRecipients st.db p.fileID t)
      ∧ (∀ row ∈ st'.db.fileRecipients, row ∈ st.db.fileRecipients
          ∨ (row.file_id = p.fileID
             ∧ row.encrypted_file_key = ((p.encryptedKeys.lookup row.recipient_email).getD ""))) := by
  obtain ⟨recs, db2, heq, hm, hc, hr, hmapE, hkeys⟩ :=
    buildRecipientRecords_spec env p.encryptedKeys p.recipientEmails
      (CreateFileMetadataIfNotExists st.db p.fileID p.senderID p.originalFilename
        p.fileSize p.totalChunks p.mimeType)
  have hdb3eq : (if recs.length == 0 then db2 else CreateFileRecipientsIfNotExists db2 p.fileID recs)
      = CreateFileRecipientsIfNotExists db2 p.fileID recs := by
    cases recs <;> rfl
  have htbl := CreateFileRecipientsIfNotExists_tables p.fileID recs db2
  have hmeta := CreateFileMetadataIfNotExists_tables st.db p.fileID p.senderID p.originalFilename
    p.fileSize p.totalChunks p.mimeType
  refine ⟨{ st with db := CreateFileRecipientsIfNotExists db2 p.fileID recs, fileMetadataMap := p.fileID :: st.fileMetadataMap }, ?_, rfl, rfl, ?_, ?_, ?_, ?_, ?_⟩
  · unfold metadataPhase
    rw [h]
    simp only [Bool.false_eq_true, if_false, heq]
    rw [hdb3eq]
  · show (CreateFileRecipientsIfNotExists db2 p.fileID recs).fileChunks = st.db.fileChunks
    rw [htbl.2.1, hc, hmeta.1]
  · show countFileMetadata (CreateFileRecipientsIfNotExists db2 p.fileID recs) p.fileID = _
    unfold countFileMetadata
    rw [htbl.1, hm]
    exact CreateFileMetadataIfNotExists_count st.db p.fileID p.senderID p.originalFilename
      p.fileSize p.totalChunks p.mimeType
  · intro f
    show metadataCompleted (CreateFileRecipientsIfNotExists db2 p.fileID recs) f = _
    unfold metadataCompleted
    rw [htbl.1, hm]
    exact CreateFileMetadataIfNotExists_completed st.db p.fileID p.senderID p.originalFilename
      p.fileSize p.totalChunks p.mimeType f
  · intro t
    show countFileRecipients (CreateFileRecipientsIfNotExists db2 p.fileID recs) p.fileID t = _
    rw [CreateFileRecipientsIfNotExists_count p.fileID t recs db2]
    have hcnt : countFileRecipients db2 p.fileID t = countFileRecipients st.db p.fileID t := by
      unfold countFileRecipients
      rw [hr, hmeta.2.1]
    rw [hcnt, hmapE]
  · intro row hrow
    rcases CreateFileRecipientsIfNotExists_rows p.fileID recs db2 row hrow with hin | ⟨r, hrrecs, hroweq⟩
    · left
      rw [hr, hmeta.2.1] at hin
      exact hin
    · right
      subst hroweq
      exact ⟨rfl, hkeys r hrrecs⟩

/-- Everything a successful CreateFileChunk implies: the pair was fresh,
the metadata row existed, and exactly the one chunk row was appended. -/
theorem CreateFileChunk_ok_facts (db : DBState) (fid : String) (idx cs : Int) (sp iv : String)
    (db1 : DBState) (h : CreateFileChunk db fid idx cs sp iv = Except.ok db1) :
    db1.fileMetadata = db.fileMetadata
    ∧ db1.fileRecipients = db.fileRecipients
    ∧ db1.authUsers = db.authUsers
    ∧ countFileChunks db fid idx = 0
    ∧ 0 < countFileMetadata db fid
    ∧ (∀ f i, countFileChunks db1 f i
        = countFileChunks db f i + (if f = fid ∧ i = idx then 1 else 0)) := by
  unfold CreateFileChunk at h
  by_cases hdup : db.fileChunks.any (fun r => r.file_id == fid && r.chunk_index == idx) = true
  · rw [if_pos hdup] at h
    exact absurd h (by simp)
  · rw [if_neg hdup] at h
    by_cases hfk : db.fileMetadata.any (fun r => r.file_id == fid) = true
    · rw [if_pos hfk] at h
      injection h with h1
      subst h1
      refine ⟨rfl, rfl, rfl, ?_, (any_eq_true_iff_countP_pos _ _).mp hfk, ?_⟩
      · exact (any_eq_false_iff_countP_zero _ _).mp (Bool.eq_false_iff.mpr hdup)
      · intro f i
        exact countFileChunks_append db fid idx cs sp iv f i
    · rw [if_neg hfk] at h
      exact absurd h (by simp)

/-- Behaviour of the handler after a successful metadata critical section:
the upload and chunk INSERT never touch the map, the metadata counts or
the recipient rows; success happens exactly when the blob write and a
fresh-keyed INSERT both succeed; completion is set exactly on the
successful ingestion of the chunk with index total chunks minus one. -/
theorem processChunk_post (env : HandlerEnv) (st : ServerState) (p : ParsedChunkRequest)
    (st1 : ServerState) (hphase : metadataPhase env st p = (none, st1)) :
    (processChunk env st p).2.fileMetadataMap = st1.fileMetadataMap
    ∧ countFileMetadata (processChunk env st p).2.db p.fileID = countFileMetadata st1.db p.fileID
    ∧ (∀ t, countFileRecipients (processChunk env st p).2.db p.fileID t
        = countFileRecipients st1.db p.fileID t)
    ∧ (processChunk env st p).2.db.fileRecipients = st1.db.fileRecipients
    ∧ ((processChunk env st p).1.isOk = true →
        env.storageOk = true ∧ env.chunkInsertFault = false
        ∧ countFileChunks st1.db p.fileID p.chunkIndex = 0
        ∧ 0 < countFileMetadata st1.db p.fileID
        ∧ (∀ i, countFileChunks (processChunk env st p).2.db p.fileID i
            = countFileChunks st1.db p.fileID i + (if i = p.chunkIndex then 1 else 0)))
    ∧ ((processChunk env st p).1.isOk = false →
        (processChunk env st p).2.db.fileChunks = st1.db.fileChunks)
    ∧ (env.storageOk = true → env.chunkInsertFault = false →
        countFileChunks st1.db p.fileID p.chunkIndex = 0 →
        0 < countFileMetadata st1.db p.fileID →
        (processChunk env st p).1.isOk = true)
    ∧ ((processChunk env st p).1.isOk = true → p.chunkIndex = p.totalChunks - 1 →
        metadataCompleted (processChunk env st p).2.db p.fileID = true)
    ∧ (¬(p.chunkIndex = p.totalChunks - 1) →
        ∀ f, metadataCompleted (processChunk env st p).2.db f = metadataCompleted st1.db f)
    ∧ ((processChunk env st p).1.isOk = false →
        ∀ f, metadataCompleted (processChunk env st p).2.db f = metadataCompleted st1.db f)
    ∧ ((processChunk env st p).1.isOk = true →
        (p.fileID ++ "/chunk_" ++ toString p.chunkIndex ++ ".enc", p.chunk)
          ∈ (processChunk env st p).2.blobs) := by
  unfold processChunk
  rw [hphase]
  cases hs : env.storageOk with
  | false =>
    simp [UploadEncryptedChunk, HandlerResult.isOk]
  | true =>
    simp only [UploadEncryptedChunk, if_true]
    cases hfault : env.chunkInsertFault with
    | true =>
      simp [HandlerResult.isOk]
    | false =>
      simp only [Bool.false_eq_true, if_false]
      cases hcc : CreateFileChunk st1.db p.fileID p.chunkIndex p.chunkSize
          (p.fileID ++ "/chunk_" ++ toString p.chunkIndex ++ ".enc") p.iv with
      | error e =>
        refine ⟨rfl, rfl, fun t => rfl, rfl, ?_, fun _ => rfl, ?_, ?_, fun _ f => rfl,
          fun _ f => rfl, ?_⟩
        · intro habs
          simp [HandlerResult.isOk] at habs
        · intro _ _ hdup hfk
          rw [CreateFileChunk_ok st1.db p.fileID p.chunkIndex p.chunkSize _ p.iv hdup hfk] at hcc
          exact absurd hcc (by simp)
        · intro habs
          simp [HandlerResult.isOk] at habs
        · intro habs
          simp [HandlerResult.isOk] at habs
      | ok db1 =>
        obtain ⟨hm1, hr1, ha1, hdup0, hfk1, hcnt⟩ :=
          CreateFileChunk_ok_facts st1.db p.fileID p.chunkIndex p.chunkSize _ p.iv db1 hcc
        by_cases hlast : p.chunkIndex = p.totalChunks - 1
        · have hbeq : (p.chunkIndex == p.totalChunks - 1) = true := by
            simp [hlast]
          simp only [hbeq, if_true]
          refine ⟨by trivial, ?_, ?_, ?_, ?_, ?_, ?_, ?_, ?_, ?_, ?_⟩
          · rw [MarkFileComplete_count]
            unfold countFileMetadata
            rw [hm1]
          · intro t
            unfold countFileRecipients
            rw [(MarkFileComplete_tables db1 p.fileID).2.1, hr1]
          · show (MarkFileComplete db1 p.fileID).fileRecipients = st1.db.fileRecipients
            rw [(MarkFileComplete_tables db1 p.fileID).2.1, hr1]
          · intro _
            refine ⟨by trivial, by trivial, hdup0, hfk1, ?_⟩
            intro i
            unfold countFileChunks
            rw [(MarkFileComplete_tables db1 p.fileID).1]
            have := hcnt p.fileID i
            unfold countFileChunks at this
            rw [this]
            congr 1
            by_cases hi : i = p.chunkIndex <;> simp [hi]
          · intro habs
            simp [HandlerResult.isOk] at habs
          · intro _ _ _ _
            rfl
          · intro _ _
            apply MarkFileComplete_completed_self
            unfold countFileMetadata
            rw [hm1]
            exact hfk1
          · intro hne
            exact absurd hlast hne
          · intro habs
            simp [HandlerResult.isOk] at habs
          · intro _
            simp
        · have hbeq : (p.chunkIndex == p.totalChunks - 1) = false := by
            simp [hlast]
          simp only [hbeq, Bool.false_eq_true, if_false]
          refine ⟨by trivial, ?_, ?_, hr1, ?_, ?_, ?_, ?_, ?_, ?_, ?_⟩
          · unfold countFileMetadata
            rw [hm1]
          · intro t
            unfold countFileRecipients
            rw [hr1]
          · intro _
            refine ⟨by trivial, by trivial, hdup0, hfk1, ?_⟩
            intro i
            have := hcnt p.fileID i
            rw [this]
            congr 1
            by_cases hi : i = p.chunkIndex <;> simp [hi]
          · intro habs
            simp [HandlerResult.isOk] at habs
          · intro _ _ _ _
            rfl
          · intro _ hlast2
            exact absurd hlast2 hlast
          · intro _ f
            unfold metadataCompleted
            rw [hm1]
          · intro habs
            simp [HandlerResult.isOk] at habs
          · intro _
            simp

/-- Claim C5: for every password P and every generated private key,
decrypting the wrapped private key produced by GenerateUserKeys P with the
same password P (and the salt and nonce it produced) returns exactly the
private-key PEM that was encrypted. -/
theorem C5_wrap_unwrap_roundtrip (password : String) (r : KeyGenEntropy) :
    DecryptPrivateKey (GenerateUserKeys password r).EncryptedPrivateKey
      (GenerateUserKeys password r).Salt (GenerateUserKeys password r).IV password
      = Except.ok r.privateKeyPEM := by
  simp [DecryptPrivateKey, GenerateUserKeys, encryptAES, decryptAES, gcmSeal, gcmOpen,
    base64Encode, base64Decode, pbkdf2Key]

/-- Claim C6: for every pair of distinct passwords P and Pp and every
private key wrapped under P, unwrapping with Pp fails with the
authentication error and never returns any plaintext. -/
theorem C6_wrong_password_rejected (p p' : String) (r : KeyGenEntropy) (h : p ≠ p') :
    DecryptPrivateKey (GenerateUserKeys p r).EncryptedPrivateKey
      (GenerateUserKeys p r).Salt (GenerateUserKeys p r).IV p'
      = Except.error ("failed to decrypt: " ++ "cipher: message authentication failed") := by
  simp only [DecryptPrivateKey, GenerateUserKeys, encryptAES, decryptAES, gcmSeal, gcmOpen,
    base64Encode, base64Decode, pbkdf2Key]
  rw [if_neg]
  intro hc
  exact h (congrArg DerivedKey.password hc.1)

/-- Witness for C6 at a concrete pair of distinct passwords. -/
theorem C6_wrong_password_rejected_witness :
    ("correct-horse" : String) ≠ "battery-staple" ∧
    DecryptPrivateKey
      (GenerateUserKeys "correct-horse" ⟨[1, 2, 3], [4, 5], [6], [7]⟩).EncryptedPrivateKey
      (GenerateUserKeys "correct-horse" ⟨[1, 2, 3], [4, 5], [6], [7]⟩).Salt
      (GenerateUserKeys "correct-horse" ⟨[1, 2, 3], [4, 5], [6], [7]⟩).IV "battery-staple"
      = Except.error ("failed to decrypt: " ++ "cipher: message authentication failed") :=
  ⟨by decide, C6_wrong_password_rejected "correct-horse" "battery-staple" ⟨[1, 2, 3], [4, 5], [6], [7]⟩ (by decide)⟩


/-- Claim C2: the pipeline marks the FileRecord complete exactly when a
chunk whose index equals chunk_count minus one is successfully ingested,
independently of whether the other chunks have been ingested: success on
the last-index chunk sets completed_at, and in every other outcome the
completion status is unchanged. -/
theorem C2_completion_detection (env : HandlerEnv) (st : ServerState) (p : ParsedChunkRequest) :
    ((processChunk env st p).1.isOk = true → p.chunkIndex = p.totalChunks - 1 →
      metadataCompleted (processChunk env st p).2.db p.fileID = true)
    ∧ (p.chunkIndex ≠ p.totalChunks - 1 →
      metadataCompleted (processChunk env st p).2.db p.fileID = metadataCompleted st.db p.fileID)
    ∧ ((processChunk env st p).1.isOk = false →
      metadataCompleted (processChunk env st p).2.db p.fileID = metadataCompleted st.db p.fileID) := by
  cases hm : st.fileMetadataMap.contains p.fileID with
  | true =>
    obtain ⟨-, -, -, -, -, -, -, hcompOk, hcompNe, hcompFail, -⟩ :=
      processChunk_post env st p st (metadataPhase_skip env st p hm)
    exact ⟨hcompOk, fun hne => hcompNe hne p.fileID, fun hf => hcompFail hf p.fileID⟩
  | false =>
    obtain ⟨st1, hphase, -, -, -, -, hcompAll, -, -⟩ := metadataPhase_fresh env st p hm
    obtain ⟨-, -, -, -, -, -, -, hcompOk, hcompNe, hcompFail, -⟩ :=
      processChunk_post env st p st1 hphase
    exact ⟨hcompOk, fun hne => (hcompNe hne p.fileID).trans (hcompAll p.fileID),
      fun hf => (hcompFail hf p.fileID).trans (hcompAll p.fileID)⟩

/-- Witness for C2: ingesting only the last-index chunk (index 2 of a
3-chunk file) into a fresh store marks the file complete. -/
theorem C2_completion_detection_witness :
    metadataCompleted (processChunk exEnv exEmptyState exReqLast).2.db exReqLast.fileID = true :=
  (C2_completion_detection exEnv exEmptyState exReqLast).1 (by decide) (by decide)

/-- Claim C7: at most one ChunkRecord ever exists per (file id, chunk
index): when a record for the pair already exists, a second upload of
that index fails with an error surfaced to the caller, adds no second
record and does not overwrite the first - the chunk table is unchanged. -/
theorem C7_chunk_write_once (env : HandlerEnv) (st : ServerState) (p : ParsedChunkRequest)
    (hdup : 0 < countFileChunks st.db p.fileID p.chunkIndex) :
    (processChunk env st p).1.isOk = false
    ∧ (processChunk env st p).2.db.fileChunks = st.db.fileChunks := by
  cases hm : st.fileMetadataMap.contains p.fileID with
  | true =>
    obtain ⟨-, -, -, -, hoktup, hfailchunks, -, -, -, -, -⟩ :=
      processChunk_post env st p st (metadataPhase_skip env st p hm)
    cases hok : (processChunk env st p).1.isOk with
    | true =>
      obtain ⟨-, -, hdup0, -, -⟩ := hoktup hok
      omega
    | false =>
      exact ⟨rfl, hfailchunks hok⟩
  | false =>
    obtain ⟨st1, hphase, -, -, hchunksEq, -, -, -, -⟩ := metadataPhase_fresh env st p hm
    obtain ⟨-, -, -, -, hoktup, hfailchunks, -, -, -, -, -⟩ :=
      processChunk_post env st p st1 hphase
    have hdup1 : 0 < countFileChunks st1.db p.fileID p.chunkIndex := by
      unfold countFileChunks
      rw [hchunksEq]
      exact hdup
    cases hok : (processChunk env st p).1.isOk with
    | true =>
      obtain ⟨-, -, hdup0, -, -⟩ := hoktup hok
      omega
    | false =>
      refine ⟨rfl, ?_⟩
      rw [hfailchunks hok]
      exact hchunksEq

/-- Witness for C7: re-uploading chunk index 1 of f1, which already has a
ChunkRecord, fails and leaves the chunk table as it was. -/
theorem C7_chunk_write_once_witness :
    (processChunk exEnv exStateWithChunk exReqMid).1.isOk = false
    ∧ (processChunk exEnv exStateWithChunk exReqMid).2.db.fileChunks
        = exStateWithChunk.db.fileChunks :=
  C7_chunk_write_once exEnv exStateWithChunk exReqMid (by decide)

/-- Claim C9: a chunk upload reports success only when the blob-store
write and the ChunkRecord insert both succeeded (the blob is stored and
the chunk row exists); on any failure the chunk table is unchanged, so the
chunk of a failed request is absent from the metadata store. -/
theorem C9_no_partial_success (env : HandlerEnv) (st : ServerState) (p : ParsedChunkRequest) :
    ((processChunk env st p).1.isOk = true →
      env.storageOk = true ∧ env.chunkInsertFault = false
      ∧ 0 < countFileChunks (processChunk env st p).2.db p.fileID p.chunkIndex
      ∧ (p.fileID ++ "/chunk_" ++ toString p.chunkIndex ++ ".enc", p.chunk)
          ∈ (processChunk env st p).2.blobs)
    ∧ ((processChunk env st p).1.isOk = false →
      (processChunk env st p).2.db.fileChunks = st.db.fileChunks) := by
  cases hm : st.fileMetadataMap.contains p.fileID with
  | true =>
    obtain ⟨-, -, -, -, hoktup, hfailchunks, -, -, -, -, hblob⟩ :=
      processChunk_post env st p st (metadataPhase_skip env st p hm)
    refine ⟨?_, hfailchunks⟩
    intro hok
    obtain ⟨hs, hf, hdup0, -, hcnt⟩ := hoktup hok
    refine ⟨hs, hf, ?_, hblob hok⟩
    have := hcnt p.chunkIndex
    simp at this
    omega
  | false =>
    obtain ⟨st1, hphase, -, -, hchunksEq, -, -, -, -⟩ := metadataPhase_fresh env st p hm
    obtain ⟨-, -, -, -, hoktup, hfailchunks, -, -, -, -, hblob⟩ :=
      processChunk_post env st p st1 hphase
    constructor
    · intro hok
      obtain ⟨hs, hf, hdup0, -, hcnt⟩ := hoktup hok
      refine ⟨hs, hf, ?_, hblob hok⟩
      have := hcnt p.chunkIndex
      simp at this
      omega
    · intro hfail
      rw [hfailchunks hfail]
      exact hchunksEq

/-- Witness for C9: with a failing blob store, the request errors and no
chunk row is written. -/
theorem C9_no_partial_success_witness :
    (processChunk exBadStorageEnv exEmptyState exReqMid).2.db.fileChunks
      = exEmptyState.db.fileChunks :=
  (C9_no_partial_success exBadStorageEnv exEmptyState exReqMid).2 (by decide)

/-- Claim C10: a named recipient email with no entry in the wrapped-keys
map does not cause rejection: the pipeline creates its RecipientRecord
with encrypted_file_key equal to the empty string, and with healthy
infrastructure the request still succeeds. -/
theorem C10_missing_wrapped_key (env : HandlerEnv) (st : ServerState) (p : ParsedChunkRequest)
    (email : String) (hmem : email ∈ p.recipientEmails) (htrim : strTrimSpace email ≠ "")
    (hmap : st.fileMetadataMap.contains p.fileID = false)
    (hnorow : countFileRecipients st.db p.fileID (strTrimSpace email) = 0)
    (hnokey : p.encryptedKeys.lookup (strTrimSpace email) = none) :
    countFileRecipients (processChunk env st p).2.db p.fileID (strTrimSpace email) = 1
    ∧ (∀ row ∈ (processChunk env st p).2.db.fileRecipients,
        row.file_id = p.fileID → row.recipient_email = strTrimSpace email →
        row.encrypted_file_key = "")
    ∧ (env.storageOk = true → env.chunkInsertFault = false →
        countFileChunks st.db p.fileID p.chunkIndex = 0 →
        (processChunk env st p).1.isOk = true) := by
  obtain ⟨st1, hphase, -, -, hchunksEq, hcountM, -, hcountR, hrows⟩ :=
    metadataPhase_fresh env st p hmap
  obtain ⟨-, -, hcr, hrl, -, -, hgood, -, -, -, -⟩ := processChunk_post env st p st1 hphase
  have hmemtrim : strTrimSpace email ∈ (p.recipientEmails.map strTrimSpace).filter (fun s => s != "") := by
    apply List.mem_filter.mpr
    refine ⟨List.mem_map.mpr ⟨email, hmem, rfl⟩, ?_⟩
    simp [htrim]
  refine ⟨?_, ?_, ?_⟩
  · rw [hcr (strTrimSpace email), hcountR (strTrimSpace email), if_pos ⟨hnorow, hmemtrim⟩]
  · intro row hrow hfid hemail
    rw [hrl] at hrow
    rcases hrows row hrow with hin | ⟨-, hkey⟩
    · exfalso
      unfold countFileRecipients at hnorow
      rw [List.countP_eq_zero] at hnorow
      apply hnorow row hin
      simp [hfid, hemail]
    · rw [hkey, hemail, hnokey]
      rfl
  · intro hs hf hchunk0
    apply hgood hs hf
    · unfold countFileChunks
      rw [hchunksEq]
      exact hchunk0
    · rw [hcountM]
      split <;> omega

/-- Witness for C10: sending to alice (with a wrapped key) and bob
(without one) creates a bob RecipientRecord with an empty key and the
request succeeds. -/
theorem C10_missing_wrapped_key_witness :
    countFileRecipients (processChunk exEnv exEmptyState exReqMid).2.db "f1" "bob@x.com" = 1 := by
  have h := (C10_missing_wrapped_key exEnv exEmptyState exReqMid "bob@x.com"
    (by decide) (by decide) (by decide) (by decide) (by decide)).1
  exact h



/-- Counterexample to claim C3: a fully populated upload request with
chunk_index 5 and chunk_count 3 is not rejected — the handler accepts it
and creates a FileRecord and a ChunkRecord, so out-of-range indices cause
side effects rather than a synchronous rejection. -/
theorem C3_out_of_range_accepted :
    (SendFileChunkHandler exEnv exEmptyState exOutOfRangeReq).1.isOk = true
    ∧ countFileChunks (SendFileChunkHandler exEnv exEmptyState exOutOfRangeReq).2.db "f1" 5 = 1
    ∧ countFileMetadata (SendFileChunkHandler exEnv exEmptyState exOutOfRangeReq).2.db "f1" = 1 := by
  refine ⟨?_, ?_, ?_⟩ <;> decide

/-- Claim C3 as amended: the handler rejects a request synchronously with
no side effects when file_id, chunk_index, chunk_count, the nonce or the
wrapped-keys field is missing; but it performs no range check at all —
whatever chunk index parses is handed unmodified to processing. -/
theorem C3_missing_fields_rejected :
    (∀ (env : HandlerEnv) (st : ServerState) (req : ChunkUploadRequest),
      req.user_id.isSome = true → req.user_token.isSome = true →
      (req.file_id = "" ∨ req.chunk_index = "" ∨ req.total_chunks = "" ∨ req.iv = ""
        ∨ req.encrypted_keys = KeysField.absent) →
      SendFileChunkHandler env st req = (HandlerResult.err 400 "Missing required fields", st))
    ∧ (∀ (env : HandlerEnv) (st : ServerState) (req : ChunkUploadRequest)
        (p : ParsedChunkRequest), validateChunkUpload req = Except.ok p →
      SendFileChunkHandler env st req = processChunk env st p) := by
  constructor
  · intro env st req hid htok hmiss
    obtain ⟨uid, hu⟩ := Option.isSome_iff_exists.mp hid
    obtain ⟨tok, ht⟩ := Option.isSome_iff_exists.mp htok
    have hcond : (req.file_id == "" || req.chunk_index == "" || req.total_chunks == ""
        || req.original_filename == "" || req.iv == "" || req.encrypted_keys.isAbsent) = true := by
      rcases hmiss with h | h | h | h | h <;> simp [h, KeysField.isAbsent]
    unfold SendFileChunkHandler validateChunkUpload
    rw [hu, ht]
    simp only [hcond, if_true]
  · intro env st req p hval
    unfold SendFileChunkHandler
    rw [hval]

/-- Witness for the amended C3 at a concrete request with an empty
chunk_index form value. -/
theorem C3_missing_fields_rejected_witness :
    SendFileChunkHandler exEnv exEmptyState exMissingFieldReq
      = (HandlerResult.err 400 "Missing required fields", exEmptyState) :=
  C3_missing_fields_rejected.1 exEnv exEmptyState exMissingFieldReq (by decide) (by decide)
    (Or.inr (Or.inl rfl))

/-- Counterexample to claim C4: when an account for the email already
exists, the provisioner surfaces the admin-API conflict error to its
caller instead of re-resolving the existing account and returning its
id. -/
theorem C4_conflict_surfaced :
    CreateUserAndSendResetEmail exDBWithBob "bob@x.com" "u2"
      = Except.error "failed to create user via admin API, status: 422" := by
  rfl

/-- Claim C4 as amended: provisioning an unknown email creates exactly
one account; a second provisioning call for the same email fails with the
conflict error surfaced to the caller (no internal re-resolution), and in
particular never creates a second account. -/
theorem C4_provisioning_conflict (db : DBState) (email id1 id2 : String)
    (h : UserExistsByEmail db email = false) :
    ∃ u db1, CreateUserAndSendResetEmail db email id1 = Except.ok (u, db1)
      ∧ u.ID = id1
      ∧ countAccounts db1 email = countAccounts db email + 1
      ∧ CreateUserAndSendResetEmail db1 email id2
          = Except.error "failed to create user via admin API, status: 422" := by
  refine ⟨⟨id1, email, email⟩,
    { db with authUsers := db.authUsers ++ [⟨id1, email⟩], userKeyRows := db.userKeyRows ++ [id1] },
    ?_, rfl, ?_, ?_⟩
  · unfold CreateUserAndSendResetEmail createUserWithAdminAPI
    rw [h]
    rfl
  · unfold countAccounts
    rw [List.countP_append]
    simp [List.countP_cons]
  · unfold CreateUserAndSendResetEmail createUserWithAdminAPI
    have hex : UserExistsByEmail { db with authUsers := db.authUsers ++ [⟨id1, email⟩], userKeyRows := db.userKeyRows ++ [id1] } email = true := by
      unfold UserExistsByEmail
      apply List.any_eq_true.mpr
      refine ⟨⟨id1, email⟩, by simp, by simp⟩
    rw [hex]
    rfl

/-- Witness for the amended C4: two provisioning calls for bob on the
empty store create one account and the second call errors. -/
theorem C4_provisioning_conflict_witness :
    ∃ u db1, CreateUserAndSendResetEmail exEmptyDB "bob@x.com" "u1" = Except.ok (u, db1)
      ∧ u.ID = "u1"
      ∧ countAccounts db1 "bob@x.com" = countAccounts exEmptyDB "bob@x.com" + 1
      ∧ CreateUserAndSendResetEmail db1 "bob@x.com" "u2"
          = Except.error "failed to create user via admin API, status: 422" :=
  C4_provisioning_conflict exEmptyDB "bob@x.com" "u1" "u2" (by decide)



/-- Requests for a file whose metadata the map already records leave the
metadata and recipient counts unchanged, and all succeed when the
infrastructure is healthy, the metadata row exists and their chunk
indices are fresh and pairwise distinct. -/
theorem processChunkSeq_done (env : HandlerEnv) (fid : String) :
    ∀ (reqs : List ParsedChunkRequest) (st : ServerState),
      st.fileMetadataMap.contains fid = true →
      (∀ p ∈ reqs, p.fileID = fid) →
      countFileMetadata (processChunkSeq env st reqs).2.db fid = countFileMetadata st.db fid
      ∧ (∀ t, countFileRecipients (processChunkSeq env st reqs).2.db fid t
          = countFileRecipients st.db fid t)
      ∧ (env.storageOk = true → env.chunkInsertFault = false →
          0 < countFileMetadata st.db fid →
          (∀ p ∈ reqs, countFileChunks st.db fid p.chunkIndex = 0) →
          reqs.Pairwise (fun p q => p.chunkIndex ≠ q.chunkIndex) →
          ∀ r ∈ (processChunkSeq env st reqs).1, r.isOk = true) := by
  intro reqs
  induction reqs with
  | nil =>
    intro st hmap hfid
    exact ⟨rfl, fun t => rfl, fun _ _ _ _ _ r hr => absurd hr (List.not_mem_nil r)⟩
  | cons p rest ih =>
    intro st hmap hfid
    have hpfid : p.fileID = fid := hfid p (List.mem_cons_self p rest)
    have hmp : st.fileMetadataMap.contains p.fileID = true := by
      rw [hpfid]
      exact hmap
    obtain ⟨hmapEq, hcm, hcr, hrl, hoktup, hfailchunks, hgood, -, -, -, -⟩ :=
      processChunk_post env st p st (metadataPhase_skip env st p hmp)
    rw [hpfid] at hcm hcr
    have hmap1 : (processChunk env st p).2.fileMetadataMap.contains fid = true := by
      rw [hmapEq]
      exact hmap
    obtain ⟨ihm, ihr, ihok⟩ :=
      ih (processChunk env st p).2 hmap1 (fun q hq => hfid q (List.mem_cons_of_mem p hq))
    have hseq2 : (processChunkSeq env st (p :: rest)).2
        = (processChunkSeq env (processChunk env st p).2 rest).2 := rfl
    have hseq1 : (processChunkSeq env st (p :: rest)).1
        = (processChunk env st p).1 :: (processChunkSeq env (processChunk env st p).2 rest).1 := rfl
    refine ⟨?_, ?_, ?_⟩
    · rw [hseq2, ihm, hcm]
    · intro t
      rw [hseq2, ihr t, hcr t]
    · intro hs hf hposm hfresh hpw
      have hpw' := List.pairwise_cons.mp hpw
      rw [hseq1]
      intro r hr
      rcases List.mem_cons.mp hr with rfl | hr
      · apply hgood hs hf
        · have hthis := hfresh p (List.mem_cons_self p rest)
          rw [hpfid]
          exact hthis
        · rw [hpfid]
          exact hposm
      · refine ihok hs hf ?_ ?_ hpw'.2 r hr
        · rw [hcm]
          exact hposm
        · intro q hq
          have h0 := hfresh q (List.mem_cons_of_mem p hq)
          cases hok1 : (processChunk env st p).1.isOk with
          | false =>
            have hch := hfailchunks hok1
            unfold countFileChunks at h0 ⊢
            rw [hch]
            exact h0
          | true =>
            obtain ⟨-, -, -, -, hcnt⟩ := hoktup hok1
            have hq0 := hcnt q.chunkIndex
            rw [hpfid] at hq0
            have hne := hpw'.1 q hq
            rw [if_neg (fun hx => hne hx.symm)] at hq0
            omega

/-- Claim C1: for any serialisation of M racing chunk-upload requests
that share a file id and name the same recipients, starting from a state
with no trace of the file, exactly one FileRecord and exactly one
RecipientRecord per named (trimmed, non-empty) recipient are created, and
with healthy infrastructure and pairwise-distinct chunk indices the
losers of the metadata race observe the created records and every request
completes without error. -/
theorem C1_exactly_once_metadata (env : HandlerEnv) (fid : String) (emails : List String)
    (reqs : List ParsedChunkRequest) (st0 : ServerState)
    (hmap0 : st0.fileMetadataMap.contains fid = false)
    (hmeta0 : countFileMetadata st0.db fid = 0)
    (hrec0 : ∀ t, countFileRecipients st0.db fid t = 0)
    (hchunk0 : ∀ i, countFileChunks st0.db fid i = 0)
    (hreqs : ∀ p ∈ reqs, p.fileID = fid ∧ p.recipientEmails = emails)
    (hne : reqs ≠ []) :
    countFileMetadata (processChunkSeq env st0 reqs).2.db fid = 1
    ∧ (∀ e ∈ emails, strTrimSpace e ≠ "" →
        countFileRecipients (processChunkSeq env st0 reqs).2.db fid (strTrimSpace e) = 1)
    ∧ (env.storageOk = true → env.chunkInsertFault = false →
        reqs.Pairwise (fun p q => p.chunkIndex ≠ q.chunkIndex) →
        ∀ r ∈ (processChunkSeq env st0 reqs).1, r.isOk = true) := by
  cases reqs with
  | nil => exact absurd rfl hne
  | cons p rest =>
    obtain ⟨hpfid, hpemails⟩ := hreqs p (List.mem_cons_self p rest)
    have hmp : st0.fileMetadataMap.contains p.fileID = false := by
      rw [hpfid]
      exact hmap0
    obtain ⟨st1, hphase, hmapEq1, hblobs1, hchunksEq1, hcountM1, hcompAll1, hcountR1, hrows1⟩ :=
      metadataPhase_fresh env st0 p hmp
    obtain ⟨hmapEq, hcm, hcr, hrl, hoktup, hfailchunks, hgood, -, -, -, -⟩ :=
      processChunk_post env st0 p st1 hphase
    rw [hpfid] at hcm hcr hcountM1 hcountR1
    have hcm1 : countFileMetadata (processChunk env st0 p).2.db fid = 1 := by
      rw [hcm, hcountM1, if_pos hmeta0]
    have hmap1 : (processChunk env st0 p).2.fileMetadataMap.contains fid = true := by
      rw [hmapEq, hmapEq1, hpfid]
      simp
    have hchunkSt1 : ∀ i, countFileChunks st1.db fid i = 0 := by
      intro i
      unfold countFileChunks
      rw [hchunksEq1]
      exact hchunk0 i
    obtain ⟨ihm, ihr, ihok⟩ := processChunkSeq_done env fid rest (processChunk env st0 p).2 hmap1
      (fun q hq => (hreqs q (List.mem_cons_of_mem p hq)).1)
    have hseq2 : (processChunkSeq env st0 (p :: rest)).2
        = (processChunkSeq env (processChunk env st0 p).2 rest).2 := rfl
    have hseq1 : (processChunkSeq env st0 (p :: rest)).1
        = (processChunk env st0 p).1 :: (processChunkSeq env (processChunk env st0 p).2 rest).1 := rfl
    refine ⟨?_, ?_, ?_⟩
    · rw [hseq2, ihm, hcm1]
    · intro e hemem hetrim
      have hmemtrim : strTrimSpace e
          ∈ (p.recipientEmails.map strTrimSpace).filter (fun s => s != "") := by
        apply List.mem_filter.mpr
        refine ⟨List.mem_map.mpr ⟨e, by rw [hpemails]; exact hemem, rfl⟩, ?_⟩
        simp [hetrim]
      rw [hseq2, ihr (strTrimSpace e), hcr (strTrimSpace e), hcountR1 (strTrimSpace e),
        if_pos ⟨hrec0 (strTrimSpace e), hmemtrim⟩]
    · intro hs hf hpw
      have hpw' := List.pairwise_cons.mp hpw
      rw [hseq1]
      intro r hr
      rcases List.mem_cons.mp hr with rfl | hr
      · apply hgood hs hf
        · rw [hpfid]
          exact hchunkSt1 p.chunkIndex
        · rw [hpfid, hcountM1, if_pos hmeta0]
          omega
      · refine ihok hs hf ?_ ?_ hpw'.2 r hr
        · rw [hcm1]
          omega
        · intro q hq
          cases hok1 : (processChunk env st0 p).1.isOk with
          | false =>
            have hch := hfailchunks hok1
            unfold countFileChunks at hchunkSt1 ⊢
            rw [hch]
            exact hchunkSt1 q.chunkIndex
          | true =>
            obtain ⟨-, -, -, -, hcnt⟩ := hoktup hok1
            have hq0 := hcnt q.chunkIndex
            rw [hpfid] at hq0
            have hne2 := hpw'.1 q hq
            rw [if_neg (fun hx => hne2 hx.symm)] at hq0
            have hz := hchunkSt1 q.chunkIndex
            unfold countFileChunks at hq0 hz ⊢
            omega

/-- Witness for C1: two requests for chunks 0 and 1 of f1 on the fresh
store leave exactly one FileRecord for f1. -/
theorem C1_exactly_once_metadata_witness :
    countFileMetadata (processChunkSeq exEnv exEmptyState [exReqFirst, exReqMid]).2.db "f1" = 1 :=
  (C1_exactly_once_metadata exEnv "f1" ["alice@x.com", "bob@x.com"] [exReqFirst, exReqMid]
    exEmptyState (by decide) (by decide) (fun t => rfl) (fun i => rfl) (by decide)
    (by decide)).1


end SDT
